import Mathlib

/-!
Shallow embedding of the ai-personalized-email prototype services.

The repository holds near-duplicate FastAPI services (app.py with MongoDB,
mailer.py with SQLite, main.py with MongoDB plus validated schemas).  The
definitions below translate the persistence routines, the engagement-tier
rule, the subject-line lookup, the LLM branch dispatch and the
single/batch email pipelines of those files; theorems settle the frozen
claims about them.  Python integers become Int, nullable strings become
Option String (with Python truthiness made explicit), dictionaries with a
fixed key set become structures, and the external LLM / SendGrid calls
become parameters of the pipeline functions.
-/

namespace AIEmail

/-- Test for an ASCII whitespace character (space, tab, newline, carriage
return), used to model the Python strip method. -/
def isSpaceChar (c : Char) : Bool :=
  c.toNat == 32 || c.toNat == 9 || c.toNat == 10 || c.toNat == 13

/-- The Python strip method: remove whitespace from both ends. -/
def pyStrip (s : String) : String :=
  ⟨((s.data.dropWhile isSpaceChar).reverse.dropWhile isSpaceChar).reverse⟩

/-- The Python lower method, mapping each character to lower case. -/
def pyLower (s : String) : String :=
  ⟨s.data.map Char.toLower⟩

/-- Prefix test on character lists, used to model Python substring
containment. -/
def listStartsWith : List Char → List Char → Bool
  | [], _ => true
  | _ :: _, [] => false
  | a :: as, b :: bs => a == b && listStartsWith as bs

/-- Substring occurrence test on character lists. -/
def listContains (pat : List Char) : List Char → Bool
  | [] => pat.isEmpty
  | c :: rest => listStartsWith pat (c :: rest) || listContains pat rest

/-- Python truthiness of an optional string: None and the empty string are
falsy, every other string is truthy. -/
def truthy : Option String → Bool
  | none => false
  | some s => s ≠ ""

/-- Embedding of the Python expression (a or b) on nullable strings. -/
def pyOr (a b : Option String) : Option String :=
  if truthy a then a else b

/-- Update-dict semantics of the Mongo save_or_update_prospect: a field is
written only when the argument is not None, otherwise the stored value is
kept (the dict comprehension filtering on v is not None). -/
def keepIfNone (arg old : Option String) : Option String :=
  match arg with
  | some v => some v
  | none => old

/-- Rendering of an optional string inside a Python f-string: None prints
as the string None. -/
def pyStr : Option String → String
  | none => "None"
  | some s => s

/-- Engagement tier from the cumulative interaction count
(mailer.py lines 119 to 124, app.py lines 126 to 131, main.py lines 104
to 109; the three copies are identical). -/
def determine_engagement_level (interaction_count : Int) : String :=
  if interaction_count ≥ 4 then "High"
  else if interaction_count ≥ 2 then "Medium"
  else "Low"

/-- A prospect record as stored by both backends: the prospects collection
of app.py / main.py and the prospects table of mailer.py (init_db,
mailer.py lines 39 to 66).  Nullable columns are Option String. -/
structure Prospect where
  email : String
  industry : Option String
  company_name : Option String
  contact_name : Option String
  engagement_level : String
  interaction_count : Int
  phone_number : Option String
  last_call_outcome : Option String
  call_count : Int
deriving DecidableEq, Repr

/-- An email_history record (prospect_email, subject, body); the sent_at
timestamp is wall-clock and not modelled. -/
structure HistoryRecord where
  prospect_email : String
  subject : String
  body : String
deriving DecidableEq, Repr

/-- The two persisted collections of a service instance. -/
structure DBState where
  prospects : List Prospect
  history : List HistoryRecord
deriving DecidableEq, Repr

/-- The store invariant guaranteed by the unique email index (app.py
init_db) and the email PRIMARY KEY (mailer.py init_db): distinct records
have distinct email keys. -/
def uniqueEmails (store : List Prospect) : Prop :=
  store.Pairwise (fun p q => p.email ≠ q.email)

instance : DecidablePred uniqueEmails := fun store =>
  List.instDecidablePairwise store

/-- Lookup of get_prospect: first stored record with the given email
(find_one in app.py / main.py, SELECT ... WHERE email = ? in mailer.py). -/
def findProspect (store : List Prospect) (email : String) : Option Prospect :=
  store.find? (fun p => p.email == email)

/-- Semantics of Mongo update_one: rewrite the first record whose email
matches, leave every other record alone. -/
def updateFirst (f : Prospect → Prospect) (email : String) :
    List Prospect → List Prospect
  | [] => []
  | p :: rest =>
      if p.email == email then f p :: rest
      else p :: updateFirst f email rest

/-- Field rewrite applied by the update branch of the Mongo
save_or_update_prospect (app.py lines 106 to 115, main.py lines 84 to 93):
set every non-None argument, increment call_count when the call outcome is
truthy, never touch interaction_count. -/
def mongoUpdate (email : String) (industry company_name contact_name : Option String)
    (engagement_level : String) (phone_number call_outcome : Option String)
    (p : Prospect) : Prospect :=
  { email := email
    industry := keepIfNone industry p.industry
    company_name := keepIfNone company_name p.company_name
    contact_name := keepIfNone contact_name p.contact_name
    engagement_level := engagement_level
    interaction_count := p.interaction_count
    phone_number := keepIfNone phone_number p.phone_number
    last_call_outcome := keepIfNone call_outcome p.last_call_outcome
    call_count := if truthy call_outcome then p.call_count + 1 else p.call_count }

/-- Mongo save_or_update_prospect (app.py lines 91 to 123, main.py lines
69 to 101): update the existing record in place, or insert a fresh record
with interaction_count 0 and call_count 1 exactly when the call outcome is
truthy. -/
def mongoUpsert (store : List Prospect) (email : String)
    (industry company_name contact_name : Option String)
    (engagement_level : String) (phone_number call_outcome : Option String) :
    List Prospect :=
  match findProspect store email with
  | some _ =>
      updateFirst
        (mongoUpdate email industry company_name contact_name
          engagement_level phone_number call_outcome) email store
  | none =>
      store ++
        [{ email := email
           industry := industry
           company_name := company_name
           contact_name := contact_name
           engagement_level := engagement_level
           interaction_count := 0
           phone_number := phone_number
           last_call_outcome := call_outcome
           call_count := if truthy call_outcome then 1 else 0 }]

/-- SQLite save_or_update_prospect (mailer.py lines 93 to 116).  The
UPDATE statement overwrites industry, company_name, contact_name,
engagement_level and last_call_outcome with the given values, falls back
to the stored phone only through the Python expression
(phone_number or existing) evaluated once on the first matching row, and
adds CASE WHEN call_outcome IS NOT NULL THEN 1 ELSE 0 to call_count; the
INSERT statement writes call_count 0 and leaves interaction_count to its
column default 0.  The columns industry, company_name and contact_name
are declared NOT NULL, so a None value for any of them aborts the
statement: the result none models that integrity error. -/
def sqliteUpsert (store : List Prospect) (email : String)
    (industry company_name contact_name : Option String)
    (engagement_level : String) (phone_number call_outcome : Option String) :
    Option (List Prospect) :=
  if industry.isNone || company_name.isNone || contact_name.isNone then none
  else
    match findProspect store email with
    | some existing =>
        some (store.map (fun p =>
          if p.email == email then
            { email := p.email
              industry := industry
              company_name := company_name
              contact_name := contact_name
              engagement_level := engagement_level
              interaction_count := p.interaction_count
              phone_number := pyOr phone_number existing.phone_number
              last_call_outcome := call_outcome
              call_count := p.call_count + (if call_outcome.isSome then 1 else 0) }
          else p))
    | none =>
        some (store ++
          [{ email := email
             industry := industry
             company_name := company_name
             contact_name := contact_name
             engagement_level := engagement_level
             interaction_count := 0
             phone_number := phone_number
             last_call_outcome := call_outcome
             call_count := 0 }])

/-- Inner dictionary of the two-level subject table, keyed by engagement
level, for a lowercased industry (main.py lines 209 to 213; the copies in
app.py and mailer.py differ only in Unicode punctuation inside one
value).  An industry outside technology, finance and health gets the
one-entry default dictionary with the single key Low. -/
def subjectTable (industryLower : String) (company : String) :
    List (String × String) :=
  if industryLower == "technology" then
    [("Low", "Protecting Your Innovations at " ++ company),
     ("Medium", "Next Steps for Risk Management at " ++ company),
     ("High", "Customized Insurance Solutions for " ++ company)]
  else if industryLower == "finance" then
    [("Low", "Secure Your Financial Future with " ++ company),
     ("Medium", "Protect Your Financial Firm\x27s Assets with " ++ company),
     ("High", "Tailored Security Solutions for " ++ company)]
  else if industryLower == "health" then
    [("Low", "Ensure Compliance at " ++ company),
     ("Medium", "Efficiency and Compliance for " ++ company),
     ("High", "Advanced Protection for " ++ company)]
  else
    [("Low", "Sigma Insurance Marketing")]

/-- Subject selection: lowercase the industry, pick the inner dictionary
(with the default for unknown industries), then index it with the
engagement level.  The Python index operation raises KeyError on a
missing key; that is the result none. -/
def subjectLookup (industry level company : String) : Option String :=
  ((subjectTable (pyLower industry) company).find?
    (fun kv => kv.fst == level)).map (fun kv => kv.snd)

/-- A validated prospect payload of main.py (schemas.Prospect): email,
industry, company_name and contact_name are required strings,
engagement_level and phone_number are nullable. -/
structure ReqProspect where
  email : String
  industry : String
  company_name : String
  contact_name : String
  engagement_level : Option String
  phone_number : Option String
deriving DecidableEq, Repr

/-- The field values chosen by the load-or-default merge step. -/
structure Merged where
  industry_used : Option String
  company_name_used : Option String
  contact_name_used : Option String
  engagement_level_used : String
  phone_number_used : Option String
deriving DecidableEq, Repr

/-- Merge of the request payload with the stored record (main.py lines
193 to 204): string fields use Python or (falling back on empty strings),
engagement_level uses an explicit is-not-None test, and a missing record
defaults the engagement level to Low. -/
def mergeRequest (req : ReqProspect) (dbp : Option Prospect) : Merged :=
  match dbp with
  | some p =>
      { industry_used := pyOr (some req.industry) p.industry
        company_name_used := pyOr (some req.company_name) p.company_name
        contact_name_used := pyOr (some req.contact_name) p.contact_name
        engagement_level_used := req.engagement_level.getD p.engagement_level
        phone_number_used := pyOr req.phone_number p.phone_number }
  | none =>
      { industry_used := some req.industry
        company_name_used := some req.company_name
        contact_name_used := some req.contact_name
        engagement_level_used := req.engagement_level.getD "Low"
        phone_number_used := req.phone_number }

/-- Increment of the interaction counter applied by update_one with inc
(main.py lines 236 to 239): every other field is untouched. -/
def incInteraction (p : Prospect) : Prospect :=
  { p with interaction_count := p.interaction_count + 1 }

/-- The two post-send persistence steps (main.py lines 228 to 239): append
one email_history record, then add 1 to the interaction_count of the
first record with that email. -/
def writeHistoryAndIncrement (st : DBState) (email subject body : String) :
    DBState :=
  { prospects := updateFirst incInteraction email st.prospects
    history := st.history ++ [⟨email, subject, body⟩] }

/-- Outcome of the single-email handler: the JSON success payload or an
HTTP error status (every exception is mapped to 500 by the handler). -/
inductive Response
  | ok (email_sent_to : String) (body : String) (engagement_level : String)
  | error (code : Nat)
deriving DecidableEq, Repr

/-- The database write of save_or_update_prospect inside the email
handlers of main.py (line 206): the merged fields are written with no
call outcome; the history list is untouched. -/
def upsertStep (st : DBState) (em : String) (m : Merged) : DBState :=
  { st with
      prospects :=
        mongoUpsert st.prospects em m.industry_used m.company_name_used
          m.contact_name_used m.engagement_level_used m.phone_number_used
          none }

/-- The tail of the email handler after the database upsert (main.py
lines 209 to 241): select the subject, generate the body (the LLM output
is the parameter gen), send (the SendGrid outcome is the parameter
sendOk), then write history and bump the counter.  A None industry
(AttributeError on lower), a missing subject key (KeyError) or a failed
send each abort with 500, keeping the state already written. -/
def finishSend (st1 : DBState) (em gen : String) (m : Merged)
    (sendOk : Bool) : Response × DBState :=
  match m.industry_used with
  | none => (.error 500, st1)
  | some ind =>
      match subjectLookup ind m.engagement_level_used (pyStr m.company_name_used) with
      | none => (.error 500, st1)
      | some subj =>
          if sendOk then
            (.ok em gen m.engagement_level_used,
              writeHistoryAndIncrement st1 em subj gen)
          else
            (.error 500, st1)

/-- The POST /email handler of main.py (send_single_email, lines 180 to
245): strip the email, load the stored record, merge, upsert, then run
the subject, generation, send and bookkeeping steps. -/
def sendSingleEmail (st : DBState) (req : ReqProspect) (gen : String)
    (sendOk : Bool) : Response × DBState :=
  finishSend
    (upsertStep st (pyStrip req.email)
      (mergeRequest req (findProspect st.prospects (pyStrip req.email))))
    (pyStrip req.email) gen
    (mergeRequest req (findProspect st.prospects (pyStrip req.email)))
    sendOk

/-- Outcome of the batch handler POST /details. -/
inductive BatchResponse
  | ok (emails_sent_to : List String) (bodies : List String)
      (engagement_level : String)
  | error (code : Nat)
deriving DecidableEq, Repr

/-- Loop body accumulator of the batch handler: database state, the two
response lists, and the last value assigned to the Python local
engagement_level_used (none while the loop has not assigned it). -/
structure BatchAcc where
  state : DBState
  emails_sent_to : List String
  email_bodies : List String
  lastLevel : Option String
deriving DecidableEq, Repr

/-- Per-prospect loop of the POST /details handler of main.py (send_emails,
lines 248 to 319).  An exception inside the loop aborts the whole request
with the database state reached so far; the error result carries that
state. -/
def batchGo (gen : ReqProspect → String) (sendOk : ReqProspect → Bool) :
    BatchAcc → List ReqProspect → Except DBState BatchAcc
  | acc, [] => .ok acc
  | acc, req :: rest =>
      let em := pyStrip req.email
      let dbp := findProspect acc.state.prospects em
      let m := mergeRequest req dbp
      let st1 : DBState := upsertStep acc.state em m
      match m.industry_used with
      | none => .error st1
      | some ind =>
          match subjectLookup ind m.engagement_level_used
              (pyStr m.company_name_used) with
          | none => .error st1
          | some subj =>
              if sendOk req then
                batchGo gen sendOk
                  { state := writeHistoryAndIncrement st1 em subj (gen req)
                    emails_sent_to := acc.emails_sent_to ++ [em]
                    email_bodies := acc.email_bodies ++ [gen req]
                    lastLevel := some m.engagement_level_used }
                  rest
              else
                .error st1

/-- The POST /details handler of main.py: run the loop, then build the
final payload.  The return statement reads the loop local
engagement_level_used, so a run that never assigned it (an empty
prospects list) raises NameError, mapped to 500 by the handler. -/
def sendEmailsBatch (st : DBState) (reqs : List ReqProspect)
    (gen : ReqProspect → String) (sendOk : ReqProspect → Bool) :
    BatchResponse × DBState :=
  match batchGo gen sendOk ⟨st, [], [], none⟩ reqs with
  | .error stFail => (.error 500, stFail)
  | .ok acc =>
      match acc.lastLevel with
      | none => (.error 500, acc.state)
      | some lvl => (.ok acc.emails_sent_to acc.email_bodies lvl, acc.state)

/-- The three generation prompt templates of model.py (and app.py /
mailer.py). -/
inductive Template
  | tech
  | finance
  | health
deriving DecidableEq, Repr

/-- Substring containment, the Python expression (pat in s). -/
def containsSub (s pat : String) : Bool :=
  listContains pat.data s.data

/-- RunnableBranch evaluation (model.py lines 96 to 104): walk the
condition and template pairs in order, return the template of the first
true condition (or the default) together with the number of conditions
evaluated.  Every condition evaluation invokes the classification chain
once, so that count is the number of classification LLM calls. -/
def runnableBranch (conds : List (Bool × Template)) (dflt : Template) :
    Template × Nat :=
  match conds with
  | [] => (dflt, 0)
  | (c, t) :: rest =>
      if c then (t, 1)
      else
        let r := runnableBranch rest dflt
        (r.fst, r.snd + 1)

/-- The branches runnable of model.py with the classification LLM
modelled as the deterministic oracle classify: each condition lambda
invokes the classification chain on the industry afresh and tests
substring containment on the lowercased output; the default template is
the tech one.  Returns the dispatched template and the number of
classification invocations. -/
def branchesRun (classify : String → String) (industry : String) :
    Template × Nat :=
  runnableBranch
    [(containsSub (pyLower (classify industry)) "technology", .tech),
     (containsSub (pyLower (classify industry)) "finance", .finance),
     (containsSub (pyLower (classify industry)) "health", .health)]
    .tech

/-- Total LLM invocations of one generated body: the classification calls
made by the branch conditions plus the single generation call of the
selected template. -/
def totalLLMCalls (classify : String → String) (industry : String) : Nat :=
  (branchesRun classify industry).snd + 1

/-- A stored prospect with five past interactions but a stale stored
engagement level, used by concrete counterexamples and witnesses. -/
def storedProspect : Prospect :=
  { email := "p@x.com"
    industry := some "technology"
    company_name := some "Acme"
    contact_name := some "Bob"
    engagement_level := "Low"
    interaction_count := 5
    phone_number := none
    last_call_outcome := none
    call_count := 0 }

/-- A database state holding just storedProspect and no history. -/
def storedState : DBState := ⟨[storedProspect], []⟩

/-- A request for the stored prospect that supplies no engagement level. -/
def storedReq : ReqProspect :=
  { email := "p@x.com"
    industry := "technology"
    company_name := "Acme"
    contact_name := "Bob"
    engagement_level := none
    phone_number := none }

/-! Claim C1: the engagement-tier rule. -/

/-- C1: for every interaction count n at least 0,
determine_engagement_level returns Low when n is below 2, Medium when n is
between 2 and 3, High when n is at least 4, and never any other value. -/
theorem C1_determine_engagement_level_spec (n : Int) (h : 0 ≤ n) :
    (n < 2 → determine_engagement_level n = "Low") ∧
    (2 ≤ n → n < 4 → determine_engagement_level n = "Medium") ∧
    (4 ≤ n → determine_engagement_level n = "High") ∧
    (determine_engagement_level n = "Low" ∨
      determine_engagement_level n = "Medium" ∨
      determine_engagement_level n = "High") := by
  unfold determine_engagement_level
  split
  · refine ⟨fun h2 => ?_, fun h2 h3 => ?_, fun _ => rfl, Or.inr (Or.inr rfl)⟩
    · omega
    · omega
  · split
    · refine ⟨fun h2 => ?_, fun _ _ => rfl, fun h4 => ?_, Or.inr (Or.inl rfl)⟩
      · omega
      · omega
    · refine ⟨fun _ => rfl, fun h2 h3 => ?_, fun h4 => ?_, Or.inl rfl⟩
      · omega
      · omega

/-- Witness for C1 at the concrete count 3. -/
theorem C1_determine_engagement_level_spec_witness :
    (0 : Int) ≤ 3 ∧
      ((3 : Int) < 2 → determine_engagement_level 3 = "Low") ∧
      ((2 : Int) ≤ 3 → (3 : Int) < 4 → determine_engagement_level 3 = "Medium") ∧
      ((4 : Int) ≤ 3 → determine_engagement_level 3 = "High") ∧
      (determine_engagement_level 3 = "Low" ∨
        determine_engagement_level 3 = "Medium" ∨
        determine_engagement_level 3 = "High") :=
  ⟨by decide, C1_determine_engagement_level_spec 3 (by decide)⟩

/-! Helper lemmas about the store operations, shared by several claims. -/

theorem updateFirst_length (f : Prospect → Prospect) (e : String)
    (l : List Prospect) : (updateFirst f e l).length = l.length := by
  induction l with
  | nil => rfl
  | cons p rest ih =>
      by_cases h : p.email == e <;> simp [updateFirst, h, ih]

theorem updateFirst_emails (f : Prospect → Prospect) (e : String)
    (l : List Prospect) (hf : ∀ p, p.email = e → (f p).email = p.email) :
    (updateFirst f e l).map Prospect.email = l.map Prospect.email := by
  induction l with
  | nil => rfl
  | cons p rest ih =>
      by_cases h : p.email == e
      · have he : p.email = e := by simpa using h
        simp [updateFirst, h, hf p he]
      · simp [updateFirst, h, ih]

theorem uniqueEmails_iff (l : List Prospect) :
    uniqueEmails l ↔ (l.map Prospect.email).Pairwise (fun a b => a ≠ b) := by
  unfold uniqueEmails
  rw [List.pairwise_map]

theorem uniqueEmails_updateFirst (f : Prospect → Prospect) (e : String)
    (l : List Prospect) (hf : ∀ p, p.email = e → (f p).email = p.email)
    (h : uniqueEmails l) : uniqueEmails (updateFirst f e l) := by
  rw [uniqueEmails_iff] at h ⊢
  rw [updateFirst_emails f e l hf]
  exact h

theorem findProspect_cons (q : Prospect) (rest : List Prospect) (e : String) :
    findProspect (q :: rest) e =
      if q.email == e then some q else findProspect rest e := by
  unfold findProspect
  cases h : q.email == e <;> simp [List.find?_cons, h]

theorem findProspect_eq_none (store : List Prospect) (e : String) :
    findProspect store e = none ↔ ∀ p ∈ store, p.email ≠ e := by
  unfold findProspect
  rw [List.find?_eq_none]
  constructor
  · intro h p hp
    simpa using h p hp
  · intro h p hp
    simpa using h p hp

theorem findProspect_mem {store : List Prospect} {e : String} {p : Prospect}
    (h : findProspect store e = some p) : p ∈ store ∧ p.email = e := by
  unfold findProspect at h
  exact ⟨List.mem_of_find?_eq_some h, by simpa using List.find?_some h⟩

theorem uniqueEmails_eq_of_email_eq {store : List Prospect} {p q : Prospect}
    (hu : uniqueEmails store) (hp : p ∈ store) (hq : q ∈ store)
    (he : p.email = q.email) : p = q := by
  by_contra hne
  have hsym : Symmetric (fun p q : Prospect => p.email ≠ q.email) :=
    fun a b h hba => h hba.symm
  exact hu.forall hsym hp hq hne he

theorem findProspect_of_mem {store : List Prospect} {p : Prospect} {em : String}
    (hu : uniqueEmails store) (hp : p ∈ store) (he : p.email = em) :
    findProspect store em = some p := by
  induction store with
  | nil => cases hp
  | cons q rest ih =>
      rcases List.mem_cons.mp hp with rfl | h2
      · rw [findProspect_cons, if_pos (by simpa using he)]
      · have hqp : q.email ≠ p.email := (List.pairwise_cons.mp hu).1 p h2
        have hqe : q.email ≠ em := he ▸ hqp
        rw [findProspect_cons, if_neg (by simpa using hqe)]
        exact ih (List.pairwise_cons.mp hu).2 h2

theorem findProspect_unique {store : List Prospect} {e : String} {x p : Prospect}
    (hu : uniqueEmails store) (hfind : findProspect store e = some x)
    (hp : p ∈ store) (he : p.email = e) : p = x := by
  obtain ⟨hx, hxe⟩ := findProspect_mem hfind
  exact uniqueEmails_eq_of_email_eq hu hp hx (he.trans hxe.symm)

theorem findProspect_updateFirst {store : List Prospect} {e : String}
    {p : Prospect} (f : Prospect → Prospect) (hfe : (f p).email = p.email)
    (hfind : findProspect store e = some p) :
    findProspect (updateFirst f e store) e = some (f p) := by
  induction store with
  | nil => simp [findProspect] at hfind
  | cons q rest ih =>
      by_cases h : q.email == e
      · rw [findProspect_cons, if_pos h] at hfind
        obtain rfl : q = p := by injection hfind
        simp only [updateFirst, if_pos h]
        rw [findProspect_cons, if_pos (by rw [hfe]; exact h)]
      · rw [findProspect_cons, if_neg h] at hfind
        simp only [updateFirst, if_neg h]
        rw [findProspect_cons, if_neg h]
        exact ih hfind

theorem mem_updateFirst_of_ne {store : List Prospect} {q : Prospect}
    {e : String} (f : Prospect → Prospect) (hq : q ∈ store)
    (hne : q.email ≠ e) : q ∈ updateFirst f e store := by
  induction store with
  | nil => cases hq
  | cons r rest ih =>
      rcases List.mem_cons.mp hq with rfl | h2
      · have : (q.email == e) = false := by simpa using hne
        simp [updateFirst, this]
      · by_cases h : r.email == e
        · simp [updateFirst, h, List.mem_cons, h2]
        · simp only [updateFirst, if_neg h]
          exact List.mem_cons.mpr (Or.inr (ih h2))

theorem mem_of_mem_updateFirst {store : List Prospect} {q : Prospect}
    {e : String} (f : Prospect → Prospect)
    (hf : ∀ r, r.email = e → (f r).email = r.email)
    (hq : q ∈ updateFirst f e store) (hne : q.email ≠ e) : q ∈ store := by
  induction store with
  | nil => simp [updateFirst] at hq
  | cons r rest ih =>
      by_cases h : r.email == e
      · have hre : r.email = e := by simpa using h
        rw [updateFirst, if_pos h] at hq
        rcases List.mem_cons.mp hq with rfl | h2
        · exact absurd ((hf r hre).trans hre) hne
        · exact List.mem_cons.mpr (Or.inr h2)
      · rw [updateFirst, if_neg h] at hq
        rcases List.mem_cons.mp hq with rfl | h2
        · exact List.mem_cons.mpr (Or.inl rfl)
        · exact List.mem_cons.mpr (Or.inr (ih h2))

theorem map_upd_no_match (g : Prospect → Prospect) (e : String)
    (l : List Prospect) (h : ∀ p ∈ l, p.email ≠ e) :
    l.map (fun p => if p.email == e then g p else p) = l := by
  induction l with
  | nil => rfl
  | cons q rest ih =>
      have hq : ¬((q.email == e) = true) := by simpa using h q (by simp)
      rw [List.map_cons, if_neg hq, ih (fun p hp => h p (by simp [hp]))]

theorem map_upd_eq_updateFirst (g h : Prospect → Prospect) (e : String)
    (l : List Prospect) (hu : uniqueEmails l)
    (hgh : ∀ p ∈ l, p.email = e → g p = h p) :
    l.map (fun p => if p.email == e then g p else p) = updateFirst h e l := by
  induction l with
  | nil => rfl
  | cons q rest ih =>
      by_cases hq : q.email == e
      · have hqe : q.email = e := by simpa using hq
        have hrest : ∀ p ∈ rest, p.email ≠ e := by
          intro p hp hpe
          exact (List.pairwise_cons.mp hu).1 p hp (hqe.trans hpe.symm)
        rw [List.map_cons, if_pos hq, hgh q (by simp) hqe]
        simp only [updateFirst, if_pos hq]
        rw [map_upd_no_match g e rest hrest]
      · rw [List.map_cons, if_neg hq]
        simp only [updateFirst, if_neg hq]
        rw [ih (List.pairwise_cons.mp hu).2
          (fun p hp hpe => hgh p (by simp [hp]) hpe)]

theorem mergeRequest_level (req : ReqProspect) (dbp : Option Prospect) :
    (mergeRequest req dbp).engagement_level_used =
      match req.engagement_level with
      | some l => l
      | none =>
          match dbp with
          | some p => p.engagement_level
          | none => "Low" := by
  obtain ⟨em, ind, cn, tn, lvl, ph⟩ := req
  cases dbp <;> cases lvl <;> rfl

theorem finishSend_cases (st1 : DBState) (em gen : String) (m : Merged)
    (sendOk : Bool) :
    (∃ c, (finishSend st1 em gen m sendOk).fst = Response.error c) ∨
      (finishSend st1 em gen m sendOk).fst =
        Response.ok em gen m.engagement_level_used := by
  obtain ⟨i, c, t, l, p⟩ := m
  cases i with
  | none => exact Or.inl ⟨500, rfl⟩
  | some ind =>
      dsimp only [finishSend]
      cases subjectLookup ind l (pyStr c) with
      | none => exact Or.inl ⟨500, rfl⟩
      | some subj =>
          cases sendOk with
          | false => exact Or.inl ⟨500, rfl⟩
          | true => exact Or.inr rfl

theorem finishSend_sendFail (st1 : DBState) (em gen : String) (m : Merged) :
    finishSend st1 em gen m false = (Response.error 500, st1) := by
  obtain ⟨i, c, t, l, p⟩ := m
  cases i with
  | none => rfl
  | some ind =>
      dsimp only [finishSend]
      cases subjectLookup ind l (pyStr c) <;> rfl

/-! Claim C2: which engagement tier the email pipeline actually uses. -/

/-- C2 counterexample: a stored prospect with interaction_count 5 (tier
High by the rule) but stored engagement_level Low, and a request without
an engagement level.  The pipeline computes the subject and plan with
tier Low, not with the tier High derived from the interaction count. -/
theorem C2_counterexample :
    (sendSingleEmail storedState storedReq "BODY" true).fst =
        Response.ok "p@x.com" "BODY" "Low" ∧
      storedProspect.interaction_count = 5 ∧
      determine_engagement_level 5 = "High" ∧
      ("Low" : String) ≠ "High" := by
  refine ⟨?_, rfl, ?_, ?_⟩ <;> decide

/-- C2 amended: the engagement tier used to compute the subject line and
plan is the engagement level supplied by the request when it is not None,
otherwise the engagement_level field stored on the prospect record when
one exists, otherwise Low; determine_engagement_level is not consulted by
the email pipeline. -/
theorem C2_level_used_is_request_or_stored (st : DBState) (req : ReqProspect)
    (gen : String) (sendOk : Bool) :
    (∃ c, (sendSingleEmail st req gen sendOk).fst = Response.error c) ∨
      (sendSingleEmail st req gen sendOk).fst =
        Response.ok (pyStrip req.email) gen
          (match req.engagement_level with
           | some l => l
           | none =>
               match findProspect st.prospects (pyStrip req.email) with
               | some p => p.engagement_level
               | none => "Low") := by
  rw [← mergeRequest_level req (findProspect st.prospects (pyStrip req.email))]
  exact finishSend_cases _ _ _ _ _

/-! Claim C3: totality of the subject-line selection. -/

/-- C3 counterexample: for an industry outside technology, finance and
health, the default inner dictionary has only the key Low, so the
Medium lookup raises KeyError while the Low lookup returns the default
subject. -/
theorem C3_counterexample :
    subjectLookup "retail" "Medium" "Acme" = none ∧
      subjectLookup "retail" "Low" "Acme" = some "Sigma Insurance Marketing" := by
  constructor <;> decide

/-- C3 amended: for an engagement tier in Low, Medium, High, the subject
selection succeeds exactly when the lowercased industry is one of
technology, finance and health, or the tier is Low; for any other
industry with tier Medium or High the two-level lookup fails with a
missing key. -/
theorem C3_subject_lookup_partial (industry level company : String)
    (h : level = "Low" ∨ level = "Medium" ∨ level = "High") :
    (subjectLookup industry level company).isSome ↔
      (pyLower industry = "technology" ∨ pyLower industry = "finance" ∨
        pyLower industry = "health" ∨ level = "Low") := by
  unfold subjectLookup subjectTable
  rcases h with h | h | h <;> subst h <;>
    by_cases h1 : pyLower industry == "technology" <;>
    by_cases h2 : pyLower industry == "finance" <;>
    by_cases h3 : pyLower industry == "health" <;>
    simp_all [List.find?]

/-- Witness for C3 at industry Technology, tier Medium. -/
theorem C3_subject_lookup_partial_witness :
    (("Medium" : String) = "Low" ∨ ("Medium" : String) = "Medium" ∨
        ("Medium" : String) = "High") ∧
      ((subjectLookup "Technology" "Medium" "Acme").isSome ↔
        (pyLower "Technology" = "technology" ∨
          pyLower "Technology" = "finance" ∨
          pyLower "Technology" = "health" ∨ ("Medium" : String) = "Low")) :=
  ⟨by decide, C3_subject_lookup_partial "Technology" "Medium" "Acme" (by decide)⟩

/-! Claim C4: the upsert invariant of save_or_update_prospect. -/

/-- C4: on a store with unique emails, the Mongo save_or_update_prospect
keeps emails unique, updates in place (same length) when a record with
the email exists, and otherwise appends exactly one new record whose
interaction_count and call_count are 0 when no call outcome is given. -/
theorem C4_upsert_invariant (store : List Prospect) (email : String)
    (industry company_name contact_name : Option String)
    (engagement_level : String) (phone_number call_outcome : Option String)
    (hu : uniqueEmails store) :
    uniqueEmails (mongoUpsert store email industry company_name contact_name
        engagement_level phone_number call_outcome) ∧
      ((∃ p ∈ store, p.email = email) →
        (mongoUpsert store email industry company_name contact_name
            engagement_level phone_number call_outcome).length = store.length) ∧
      ((∀ p ∈ store, p.email ≠ email) →
        ∃ newP,
          mongoUpsert store email industry company_name contact_name
              engagement_level phone_number call_outcome = store ++ [newP] ∧
            newP.email = email ∧
            (call_outcome = none →
              newP.interaction_count = 0 ∧ newP.call_count = 0)) := by
  have hf : ∀ p : Prospect, p.email = email →
      (mongoUpdate email industry company_name contact_name engagement_level
        phone_number call_outcome p).email = p.email := by
    intro p hp
    simpa [mongoUpdate] using hp.symm
  cases hfind : findProspect store email with
  | some x =>
      refine ⟨?_, ?_, ?_⟩
      · unfold mongoUpsert
        rw [hfind]
        exact uniqueEmails_updateFirst _ email store hf hu
      · intro _
        unfold mongoUpsert
        rw [hfind]
        exact updateFirst_length _ email store
      · intro hnone
        obtain ⟨hx, hxe⟩ := findProspect_mem hfind
        exact absurd hxe (hnone x hx)
  | none =>
      refine ⟨?_, ?_, ?_⟩
      · unfold mongoUpsert
        rw [hfind]
        rw [uniqueEmails_iff] at hu ⊢
        rw [List.map_append, List.pairwise_append]
        refine ⟨by simpa [uniqueEmails_iff] using hu, by simp, ?_⟩
        intro a ha b hb
        simp only [List.map_cons, List.map_nil, List.mem_singleton] at hb
        obtain ⟨p, hp, rfl⟩ := List.mem_map.mp ha
        rw [hb]
        exact (findProspect_eq_none store email).mp hfind p hp
      · intro ⟨p, hp, hpe⟩
        exact absurd hpe ((findProspect_eq_none store email).mp hfind p hp)
      · intro _
        refine ⟨{ email := email, industry := industry,
                  company_name := company_name, contact_name := contact_name,
                  engagement_level := engagement_level, interaction_count := 0,
                  phone_number := phone_number,
                  last_call_outcome := call_outcome,
                  call_count := if truthy call_outcome then 1 else 0 },
          ?_, rfl, ?_⟩
        · unfold mongoUpsert
          rw [hfind]
        · intro hco
          subst hco
          exact ⟨rfl, rfl⟩

/-- Witness for C4: a fresh insert into the one-record store. -/
theorem C4_upsert_invariant_witness :
    uniqueEmails [storedProspect] ∧
      (uniqueEmails (mongoUpsert [storedProspect] "new@x.com"
          (some "finance") (some "FinCo") (some "Eve") "Low" none none) ∧
        ((∃ p ∈ [storedProspect], p.email = "new@x.com") →
          (mongoUpsert [storedProspect] "new@x.com" (some "finance")
              (some "FinCo") (some "Eve") "Low" none none).length =
            [storedProspect].length) ∧
        ((∀ p ∈ [storedProspect], p.email ≠ "new@x.com") →
          ∃ newP,
            mongoUpsert [storedProspect] "new@x.com" (some "finance")
                (some "FinCo") (some "Eve") "Low" none none =
              [storedProspect] ++ [newP] ∧
              newP.email = "new@x.com" ∧
              ((none : Option String) = none →
                newP.interaction_count = 0 ∧ newP.call_count = 0))) :=
  ⟨by decide,
    C4_upsert_invariant [storedProspect] "new@x.com" (some "finance")
      (some "FinCo") (some "Eve") "Low" none none (by decide)⟩

/-! Claim C5: the post-send bookkeeping steps. -/

/-- C5: after a successful send, the two bookkeeping steps append exactly
one email_history record carrying the prospect email, subject and body,
and replace the stored record of that prospect by the same record with
interaction_count one higher; the length of the store, the records of all
other prospects, and the other fields of the prospect are unchanged. -/
theorem C5_history_and_counter (st : DBState) (em subj body : String)
    (p : Prospect) (hu : uniqueEmails st.prospects) (hp : p ∈ st.prospects)
    (he : p.email = em) :
    (writeHistoryAndIncrement st em subj body).history =
        st.history ++ [⟨em, subj, body⟩] ∧
      findProspect (writeHistoryAndIncrement st em subj body).prospects em =
        some { p with interaction_count := p.interaction_count + 1 } ∧
      (writeHistoryAndIncrement st em subj body).prospects.length =
        st.prospects.length ∧
      (∀ q ∈ st.prospects, q.email ≠ em →
        q ∈ (writeHistoryAndIncrement st em subj body).prospects) ∧
      (∀ q ∈ (writeHistoryAndIncrement st em subj body).prospects,
        q.email ≠ em → q ∈ st.prospects) := by
  have hfind : findProspect st.prospects em = some p :=
    findProspect_of_mem hu hp he
  refine ⟨rfl, ?_, ?_, ?_, ?_⟩
  · exact findProspect_updateFirst incInteraction rfl hfind
  · exact updateFirst_length incInteraction em st.prospects
  · intro q hq hne
    exact mem_updateFirst_of_ne incInteraction hq hne
  · intro q hq hne
    exact mem_of_mem_updateFirst incInteraction (fun r _ => rfl) hq hne

/-- Witness for C5 on the one-record store. -/
theorem C5_history_and_counter_witness :
    uniqueEmails storedState.prospects ∧
      storedProspect ∈ storedState.prospects ∧
      storedProspect.email = "p@x.com" ∧
      ((writeHistoryAndIncrement storedState "p@x.com" "S" "B").history =
          storedState.history ++ [⟨"p@x.com", "S", "B"⟩] ∧
        findProspect
            (writeHistoryAndIncrement storedState "p@x.com" "S" "B").prospects
            "p@x.com" =
          some { storedProspect with
                  interaction_count := storedProspect.interaction_count + 1 } ∧
        (writeHistoryAndIncrement storedState "p@x.com" "S" "B").prospects.length =
          storedState.prospects.length ∧
        (∀ q ∈ storedState.prospects, q.email ≠ "p@x.com" →
          q ∈ (writeHistoryAndIncrement storedState "p@x.com" "S" "B").prospects) ∧
        (∀ q ∈ (writeHistoryAndIncrement storedState "p@x.com" "S" "B").prospects,
          q.email ≠ "p@x.com" → q ∈ storedState.prospects)) :=
  ⟨by decide, by decide, by decide,
    C5_history_and_counter storedState "p@x.com" "S" "B" storedProspect
      (by decide) (by decide) (by decide)⟩

/-! Claim C6: no atomicity between the upsert and the send. -/

/-- C6: when the send step fails after save_or_update_prospect completed,
the handler answers 500, the prospect store keeps the just-written upsert
(no compensation), and no email_history record is written. -/
theorem C6_send_failure_keeps_upsert (st : DBState) (req : ReqProspect)
    (gen : String) :
    sendSingleEmail st req gen false =
        (Response.error 500,
          upsertStep st (pyStrip req.email)
            (mergeRequest req
              (findProspect st.prospects (pyStrip req.email)))) ∧
      (upsertStep st (pyStrip req.email)
          (mergeRequest req
            (findProspect st.prospects (pyStrip req.email)))).history =
        st.history ∧
      (upsertStep st (pyStrip req.email)
          (mergeRequest req
            (findProspect st.prospects (pyStrip req.email)))).prospects =
        mongoUpsert st.prospects (pyStrip req.email)
          (mergeRequest req
            (findProspect st.prospects (pyStrip req.email))).industry_used
          (mergeRequest req
            (findProspect st.prospects (pyStrip req.email))).company_name_used
          (mergeRequest req
            (findProspect st.prospects (pyStrip req.email))).contact_name_used
          (mergeRequest req
            (findProspect st.prospects (pyStrip req.email))).engagement_level_used
          (mergeRequest req
            (findProspect st.prospects (pyStrip req.email))).phone_number_used
          none :=
  ⟨finishSend_sendFail _ _ _ _, rfl, rfl⟩

/-! Claim C7: number of LLM invocations per generated body. -/

/-- C7 counterexample: when the classification output is finance, the
branch mechanism evaluates two condition lambdas (each invoking the
classification chain) before dispatching, so one generated body costs
three LLM calls, not two. -/
theorem C7_counterexample :
    totalLLMCalls (fun _ => "finance") "banking" = 3 ∧ (3 : Nat) ≠ 2 := by
  constructor
  · decide
  · decide

/-- C7 amended: each condition of the branch re-invokes the
classification chain, so a generated body costs one classification call
per condition evaluated plus exactly one generation call: 2 LLM calls in
total when the lowercased classification output contains technology, 3
when it contains finance but not technology, and 4 otherwise (health or
default). -/
theorem C7_llm_call_count (classify : String → String) (industry : String) :
    totalLLMCalls classify industry =
      (if containsSub (pyLower (classify industry)) "technology" then 2
       else if containsSub (pyLower (classify industry)) "finance" then 3
       else 4) := by
  unfold totalLLMCalls branchesRun
  by_cases h1 : containsSub (pyLower (classify industry)) "technology"
  · simp [runnableBranch, h1]
  · by_cases h2 : containsSub (pyLower (classify industry)) "finance"
    · simp [runnableBranch, h1, h2]
    · by_cases h3 : containsSub (pyLower (classify industry)) "health"
      · simp [runnableBranch, h1, h2, h3]
      · simp [runnableBranch, h1, h2, h3]

/-! Claim C8: which template the branch dispatches to. -/

/-- C8: with the classification LLM as a deterministic oracle, the branch
dispatches to the technology template when the lowercased classification
output contains technology, else to finance when it contains finance,
else to health when it contains health, and defaults to the technology
template otherwise. -/
theorem C8_branch_dispatch (classify : String → String) (industry : String) :
    (branchesRun classify industry).fst =
      (if containsSub (pyLower (classify industry)) "technology" then
        Template.tech
       else if containsSub (pyLower (classify industry)) "finance" then
        Template.finance
       else if containsSub (pyLower (classify industry)) "health" then
        Template.health
       else Template.tech) := by
  unfold branchesRun
  by_cases h1 : containsSub (pyLower (classify industry)) "technology"
  · simp [runnableBranch, h1]
  · by_cases h2 : containsSub (pyLower (classify industry)) "finance"
    · simp [runnableBranch, h1, h2]
    · by_cases h3 : containsSub (pyLower (classify industry)) "health"
      · simp [runnableBranch, h1, h2, h3]
      · simp [runnableBranch, h1, h2, h3]

/-! Claim C10: the validated batch endpoint on an empty prospects list. -/

/-- C10: a POST /details request with an empty prospects list does not
produce a success response: the final return reads the loop local
engagement_level_used that was never assigned, so the handler fails with
500; the loop never ran, so no email was sent and the database state is
untouched. -/
theorem C10_empty_batch_500 (st : DBState) (gen : ReqProspect → String)
    (sendOk : ReqProspect → Bool) :
    sendEmailsBatch st [] gen sendOk = (BatchResponse.error 500, st) ∧
      batchGo gen sendOk ⟨st, [], [], none⟩ [] =
        Except.ok ⟨st, [], [], none⟩ :=
  ⟨rfl, rfl⟩

/-! Claim C9: equivalence of the MongoDB and SQLite upserts. -/

/-- C9 counterexample: inserting a new prospect with a call outcome gives
call_count 1 in the Mongo variant but call_count 0 in the SQLite variant
(its INSERT hardcodes 0), so the two upserts are not equivalent. -/
theorem C9_counterexample :
    (mongoUpsert [] "a@b.c" (some "technology") (some "Acme") (some "Bob")
        "Low" none (some "Attempted")).map Prospect.call_count = [1] ∧
      (sqliteUpsert [] "a@b.c" (some "technology") (some "Acme") (some "Bob")
          "Low" none (some "Attempted")).map
        (fun l => l.map Prospect.call_count) = some [0] := by
  constructor <;> decide

/-- C9 amended: the two variants share the upsert-by-email structure, but
they agree record for record only under extra conditions: no call
outcome, non-None industry, company and contact arguments, a phone
argument that is None or non-empty, and no stored last_call_outcome on
the matched record.  Under those conditions the SQLite upsert succeeds
and returns exactly the Mongo result; outside them they diverge (insert
with a call outcome yields call_count 1 versus 0, the SQLite update
overwrites None-valued fields and clears last_call_outcome where the
Mongo update keeps the stored values). -/
theorem C9_upsert_equivalence_conditional (store : List Prospect)
    (email iv cv tv lvl : String) (phone : Option String)
    (hu : uniqueEmails store)
    (hphone : phone = none ∨ ∃ s, phone = some s ∧ s ≠ "")
    (hlast : ∀ p ∈ store, p.email = email → p.last_call_outcome = none) :
    sqliteUpsert store email (some iv) (some cv) (some tv) lvl phone none =
      some (mongoUpsert store email (some iv) (some cv) (some tv) lvl phone
        none) := by
  cases hfind : findProspect store email with
  | none =>
      simp [sqliteUpsert, mongoUpsert, hfind, truthy]
  | some existing =>
      simp only [sqliteUpsert, mongoUpsert, hfind, Option.isNone_some,
        Bool.or_self, Bool.false_or, Bool.or_false]
      rw [if_neg (by decide : ¬(false = true)), Option.some.injEq]
      apply map_upd_eq_updateFirst _ _ email store hu
      intro p hp hpe
      have hpx : p = existing := findProspect_unique hu hfind hp hpe
      subst hpx
      rcases hphone with rfl | ⟨s, rfl, hs⟩
      · simp [mongoUpdate, keepIfNone, pyOr, truthy, hpe,
          hlast p hp hpe]
      · simp [mongoUpdate, keepIfNone, pyOr, truthy, hs, hpe,
          hlast p hp hpe]

/-- Witness for C9 on the one-record store with a matching update. -/
theorem C9_upsert_equivalence_conditional_witness :
    uniqueEmails [storedProspect] ∧
      ((none : Option String) = none ∨
        ∃ s, (none : Option String) = some s ∧ s ≠ "") ∧
      (∀ p ∈ [storedProspect], p.email = "p@x.com" →
        p.last_call_outcome = none) ∧
      sqliteUpsert [storedProspect] "p@x.com" (some "technology")
          (some "Acme") (some "Bob") "Medium" none none =
        some (mongoUpsert [storedProspect] "p@x.com" (some "technology")
          (some "Acme") (some "Bob") "Medium" none none) :=
  ⟨by decide, Or.inl rfl, by decide,
    C9_upsert_equivalence_conditional [storedProspect] "p@x.com" "technology"
      "Acme" "Bob" "Medium" none (by decide) (Or.inl rfl) (by decide)⟩

end AIEmail
